import Mathlib

/-!
Shallow embedding of the device-registration log service and its simulation
driver (src/main.go), together with proofs of the specified properties.

The log file is modelled as `Option String`: `none` when the file is absent,
`some c` when it exists with content `c`.  Each HTTP handler is a pure
function from the request data and the file state to a response, the new
file state, and the list of file operations it performed.  The branches on
I/O errors (`os.IsNotExist`, other errors) are modelled by explicit result
types mirroring the branch structure of the Go code.
-/

namespace LogService

/-- JSON values as observed by the decoder of the POST handler. -/
inductive Json where
  | str (s : String)
  | num (n : Int)
  | bool (b : Bool)
  | null
  | arr (elems : List Json)
  | obj (fields : List (String × Json))

/-- The struct `DevicePayload` of src/main.go: the JSON payload of a POST. -/
structure DevicePayload where
  DeviceName : String
  DeviceType : String
  IPAddress : String
  RoutingType : String
deriving Repr, DecidableEq

/-- The log file: `none` when absent, `some c` when present with content `c`. -/
abbrev FileState := Option String

/-- File operations a handler may perform, in order. -/
inductive FsOp where
  | readFile
  | openAppend
  | writeFile
  | truncate
deriving Repr, DecidableEq

/-- An HTTP response: status code and body.  Bodies produced through Go's
`http.Error` carry the trailing newline that `http.Error` appends. -/
structure Response where
  status : Nat
  body : String
deriving Repr, DecidableEq

/-- Fixed body returned by GET when the log file does not exist. -/
def emptyLogMsg : String := "Файл логів порожній або не існує"

/-- Body of the 500 response when GET fails to read the file. -/
def readErrMsg : String := "Не вдалося прочитати файл логів\n"

/-- Body of the 400 response when the POST body fails to decode. -/
def badJsonMsg : String := "Невірний формат JSON\n"

/-- Body of the 500 response when POST fails to open the file. -/
def openErrMsg : String := "Не вдалося відкрити файл логів\n"

/-- Body of the 500 response when POST fails to write the line. -/
def writeErrMsg : String := "Не вдалося записати у файл логів\n"

/-- Fixed confirmation body of a successful POST. -/
def postOkMsg : String := "Дані успішно записано"

/-- Fixed confirmation body of a successful DELETE. -/
def deleteOkMsg : String := "Файл логів очищено"

/-- Body of the 500 response when DELETE fails to truncate the file. -/
def truncErrMsg : String := "Не вдалося очистити файл логів\n"

/-- Body of the 405 response for unsupported methods. -/
def methodMsg : String := "Метод не дозволено\n"

/-! ### GET handler -/

/-- Outcome of `os.ReadFile` as the GET handler distinguishes it:
success with the content, a does-not-exist error, or any other error. -/
inductive ReadResult where
  | ok (content : String)
  | notExist
  | otherError
deriving Repr, DecidableEq

/-- Reading the modelled file: absent gives the not-exist error. -/
def readFileFs : FileState → ReadResult
  | none => .notExist
  | some c => .ok c

/-- The branch structure of `handleGet` on the outcome of `os.ReadFile`:
not-exist gives 200 with the fixed message, any other error 500,
success 200 with the raw content. -/
def handleGetRes : ReadResult → Response
  | .notExist => ⟨200, emptyLogMsg⟩
  | .otherError => ⟨500, readErrMsg⟩
  | .ok c => ⟨200, c⟩

/-- `handleGet`: reads the file under the lock, leaves the state unchanged. -/
def handleGet (fs : FileState) : Response × FileState × List FsOp :=
  (handleGetRes (readFileFs fs), fs, [.readFile])

/-! ### DELETE handler -/

/-- Outcome of `os.Truncate` as the DELETE handler distinguishes it. -/
inductive TruncResult where
  | ok
  | notExist
  | otherError
deriving Repr, DecidableEq

/-- Truncating the modelled file: a missing file yields the not-exist error
and stays missing; an existing file becomes empty (it still exists). -/
def truncateFs : FileState → FileState × TruncResult
  | none => (none, .notExist)
  | some _ => (some "", .ok)

/-- The branch structure of `handleDelete` on the outcome of `os.Truncate`:
only an error that is not `IsNotExist` yields 500; both success and a
missing file fall through to the 200 confirmation. -/
def handleDeleteRes : TruncResult → Response
  | .otherError => ⟨500, truncErrMsg⟩
  | _ => ⟨200, deleteOkMsg⟩

/-- `handleDelete`: truncates the file under the lock. -/
def handleDelete (fs : FileState) : Response × FileState × List FsOp :=
  ((truncateFs fs).2 |> handleDeleteRes, (truncateFs fs).1, [.truncate])

/-! ### POST handler -/

/-- Case folding of one ASCII letter. -/
def lowerChar (c : Char) : Char :=
  if 65 ≤ c.toNat ∧ c.toNat ≤ 90 then Char.ofNat (c.toNat + 32) else c

/-- Case folding of ASCII letters, modelling the case-insensitive matching
of JSON object keys against struct field names in Go's decoder. -/
def foldKey (s : String) : List Char := s.data.map lowerChar

/-- Decoding one JSON value into a string field: a JSON string overwrites
the field, JSON null leaves it unchanged, anything else is a type error. -/
def decodeStringField (cur : String) : Json → Option String
  | .str s => some s
  | .null => some cur
  | _ => none

/-- Processing one key/value pair of the JSON object: keys are matched
case-insensitively against the four field names; unknown keys are skipped. -/
def decodeStep (p : DevicePayload) (kv : String × Json) : Option DevicePayload :=
  if foldKey kv.1 = foldKey "DeviceName" then
    (decodeStringField p.DeviceName kv.2).map fun s => { p with DeviceName := s }
  else if foldKey kv.1 = foldKey "DeviceType" then
    (decodeStringField p.DeviceType kv.2).map fun s => { p with DeviceType := s }
  else if foldKey kv.1 = foldKey "IPAddress" then
    (decodeStringField p.IPAddress kv.2).map fun s => { p with IPAddress := s }
  else if foldKey kv.1 = foldKey "RoutingType" then
    (decodeStringField p.RoutingType kv.2).map fun s => { p with RoutingType := s }
  else
    some p

/-- The zero value of `DevicePayload`: all fields empty. -/
def zeroPayload : DevicePayload := ⟨"", "", "", ""⟩

/-- Decoding a JSON value into a `DevicePayload`, as Go's `json.Decode`
into the struct behaves: an object fills the matching fields (absent ones
keep the zero value, unknown ones are ignored), `null` leaves the zero
value, and any other JSON value is a type error. -/
def decodePayload : Json → Option DevicePayload
  | .obj fields => fields.foldlM decodeStep zeroPayload
  | .null => some zeroPayload
  | _ => none

/-- A request body: `none` when the bytes are not syntactically valid JSON,
`some j` when they parse as the JSON value `j`. -/
abbrev Body := Option Json

/-- Decoding a request body: syntactically invalid JSON fails, otherwise
the JSON value is decoded into the struct. -/
def decodeBody (b : Body) : Option DevicePayload :=
  b.bind decodePayload

/-- The log line formatted by `handlePost`:
`[<timestamp>] Name=<>, Type=<>, IP=<>, Routing=<>` plus newline. -/
def logEntry (ts : String) (p : DevicePayload) : String :=
  "[" ++ ts ++ "] Name=" ++ p.DeviceName ++ ", Type=" ++ p.DeviceType ++
    ", IP=" ++ p.IPAddress ++ ", Routing=" ++ p.RoutingType ++ "\n"

/-- Opening with `O_APPEND|O_CREATE` and writing: an absent file is created
empty, then the line is appended to the existing content. -/
def appendFs (fs : FileState) (s : String) : FileState :=
  some ((fs.getD "") ++ s)

/-- `handlePost`: decode the body; on failure answer 400 without touching
the file; on success format the log line and append it under the lock. -/
def handlePost (b : Body) (ts : String) (fs : FileState) :
    Response × FileState × List FsOp :=
  match decodeBody b with
  | none => (⟨400, badJsonMsg⟩, fs, [])
  | some p =>
      (⟨200, postOkMsg⟩, appendFs fs (logEntry ts p), [.openAppend, .writeFile])

/-! ### Dispatch -/

/-- `handleRoot`: dispatch on the HTTP method; anything other than GET,
POST and DELETE answers 405 without touching the file. -/
def handleRoot (method : String) (b : Body) (ts : String) (fs : FileState) :
    Response × FileState × List FsOp :=
  if method = "GET" then handleGet fs
  else if method = "POST" then handlePost b ts fs
  else if method = "DELETE" then handleDelete fs
  else (⟨405, methodMsg⟩, fs, [])

/-! ### Sequences of requests -/

/-- Running a list of POST requests (body and timestamp each) in order,
collecting the responses and threading the file state. -/
def runPosts : List (Body × String) → FileState → List Response × FileState
  | [], fs => ([], fs)
  | (b, ts) :: rest, fs =>
      let step := handlePost b ts fs
      let tail := runPosts rest step.2.1
      (step.1 :: tail.1, tail.2)

/-- Concatenation of a list of log lines in order. -/
def concatLines : List String → String
  | [] => ""
  | l :: rest => l ++ concatLines rest

/-! ### Simulation driver -/

/-- The struct `NetworkConfig` of src/main.go (field `SubnetPrefix` is
called `Subnet` here). -/
structure NetworkConfig where
  Subnet : String
  PC : Nat
  Laptop : Nat
  Printer : Nat
deriving Repr, DecidableEq

/-- The two networks the simulation builds. -/
def networks : List NetworkConfig :=
  [⟨"192.168.1", 3, 1, 1⟩, ⟨"192.168.2", 3, 1, 1⟩]

/-- The device groups of one network, in the fixed order of the source:
PC, then Laptop, then Printer, each with its count. -/
def simGroups (cfg : NetworkConfig) : List (String × Nat) :=
  [("PC", cfg.PC), ("Laptop", cfg.Laptop), ("Printer", cfg.Printer)]

/-- The inner loop over one device group: device index `i` runs from 1 to
the count, the IP counter advances by one per device, the routing type is
Dynamic for an even IP suffix and Static for an odd one, and the name is
`<Type><i>_<netNum>`. -/
def simGroup (subnet : String) (netNum : Nat) (ty : String) (count : Nat)
    (ipStart : Nat) : List DevicePayload :=
  (List.range count).map fun k =>
    let i := k + 1
    let ip := ipStart + k
    { DeviceName := ty ++ toString i ++ "_" ++ toString netNum
      DeviceType := ty
      IPAddress := subnet ++ "." ++ toString ip
      RoutingType := if ip % 2 = 0 then "Dynamic" else "Static" }

/-- The loop over the device groups of one network, threading the IP
counter (it starts at 10 and advances once per device). -/
def simNetworkAux (subnet : String) (netNum : Nat) :
    List (String × Nat) → Nat → List DevicePayload
  | [], _ => []
  | (ty, count) :: rest, ipc =>
      simGroup subnet netNum ty count ipc ++
        simNetworkAux subnet netNum rest (ipc + count)

/-- The outer loop over the networks: `netIdx` is the 0-based index of the
loop, names use `netIdx + 1`, and the IP counter restarts at 10. -/
def simNetworks : List NetworkConfig → Nat → List DevicePayload
  | [], _ => []
  | cfg :: rest, netIdx =>
      simNetworkAux cfg.Subnet (netIdx + 1) (simGroups cfg) 10 ++
        simNetworks rest (netIdx + 1)

/-- The full sequence of payloads `runSimulation` posts, in order. -/
def runSimulationPayloads : List DevicePayload :=
  simNetworks networks 0

/-! ### Concurrent POSTs under the file mutex

Each of `n` concurrent POST handlers, after decoding its body, executes
`fileMutex.Lock()`, one append of its whole formatted line, and
`fileMutex.Unlock()`.  A concurrent execution is an interleaving of these
event sequences that respects the mutex: `lock` succeeds only when no
thread holds it, and the append and the unlock of a thread require that
thread to hold it.  Thread `t` is at program counter 0 before its lock,
1 before its append, 2 before its unlock, and 3 when finished. -/

/-- One event of thread `t` in a concurrent POST execution. -/
inductive PostEv where
  | lock (t : Nat)
  | append (t : Nat)
  | unlock (t : Nat)
deriving Repr, DecidableEq

/-- State of a concurrent POST execution: the mutex holder, the log file
content, and the program counter of every thread. -/
structure ConcState where
  holder : Option Nat
  file : String
  pcs : List Nat
deriving Repr, DecidableEq

/-- Program counter of thread `t`. -/
def pcOf (s : ConcState) (t : Nat) : Nat := s.pcs.getD t 0

/-- One step of a concurrent POST execution; `line t` is the log line of
thread `t`.  An event that violates program order or the mutex discipline
is not enabled, so no valid schedule contains it. -/
def postStep (line : Nat → String) (s : ConcState) : PostEv → Option ConcState
  | .lock t =>
      if t < s.pcs.length ∧ pcOf s t = 0 ∧ s.holder = none then
        some ⟨some t, s.file, s.pcs.set t 1⟩
      else none
  | .append t =>
      if pcOf s t = 1 ∧ s.holder = some t then
        some ⟨s.holder, s.file ++ line t, s.pcs.set t 2⟩
      else none
  | .unlock t =>
      if pcOf s t = 2 ∧ s.holder = some t then
        some ⟨none, s.file, s.pcs.set t 3⟩
      else none

/-- Initial state of `n` concurrent POSTs over an empty log. -/
def initConc (n : Nat) : ConcState := ⟨none, "", List.replicate n 0⟩

/-- Running a schedule of events from the initial state; the result is
`none` when some event of the schedule is not enabled. -/
def postRun (line : Nat → String) (n : Nat) (evs : List PostEv) :
    Option ConcState :=
  evs.foldlM (postStep line) (initConc n)

/-- The threads in the order their appends appear in the schedule. -/
def appendsOf (evs : List PostEv) : List Nat :=
  evs.filterMap fun e =>
    match e with
    | .append t => some t
    | _ => none

/-- The log line of the `t`-th concurrent request. -/
def postLine (reqs : List (String × DevicePayload)) (t : Nat) : String :=
  (reqs.map fun r => logEntry r.1 r.2).getD t ""

/-- One exactly when the append of thread `t` has already happened, that
is, when its program counter passed the append. -/
def wrFlag (s : ConcState) (t : Nat) : Nat := if 2 ≤ pcOf s t then 1 else 0

/-! ## Theorems -/

/-- Helper: getD after an in-bounds set. -/
theorem getD_set_lt (l : List Nat) (t u v : Nat) (ht : t < l.length) :
    (l.set t v).getD u 0 = if u = t then v else l.getD u 0 := by
  induction l generalizing t u with
  | nil => cases ht
  | cons a l ih =>
      cases t with
      | zero =>
          cases u with
          | zero => simp
          | succ u => simp [List.getD_cons_succ]
      | succ t =>
          cases u with
          | zero => simp [List.getD_cons_zero]
          | succ u =>
              have ht' : t < l.length := Nat.lt_of_succ_lt_succ ht
              simp only [List.set_cons_succ, List.getD_cons_succ, ih t u ht',
                Nat.succ_inj]

/-- Helper: a thread with a nonzero program counter is in bounds. -/
theorem pcOf_pos_lt (s : ConcState) (t : Nat) (h : pcOf s t ≠ 0) :
    t < s.pcs.length := by
  by_contra hge
  exact h (List.getD_eq_default _ _ (Nat.le_of_not_lt hge))

/-- Helper: program counter after an in-bounds set of one thread. -/
theorem pcOf_set (s0 : ConcState) (hol : Option Nat) (fl : String)
    (t' v u : Nat) (ht : t' < s0.pcs.length) :
    pcOf ⟨hol, fl, s0.pcs.set t' v⟩ u = if u = t' then v else pcOf s0 u := by
  show (s0.pcs.set t' v).getD u 0 = if u = t' then v else s0.pcs.getD u 0
  exact getD_set_lt _ _ _ _ ht

/-- Helper: every thread of the initial state is at program counter 0. -/
theorem pcOf_initConc (n t : Nat) : pcOf (initConc n) t = 0 := by
  rcases Nat.lt_or_ge t n with h | h
  · rw [pcOf, initConc, List.getD_eq_getElem _ _ (by simpa using h)]
    simp
  · exact List.getD_eq_default _ _ (by simpa [initConc] using h)

/-- Helper: no append has happened in the initial state. -/
theorem wrFlag_initConc (n t : Nat) : wrFlag (initConc n) t = 0 := by
  simp [wrFlag, pcOf_initConc]

/-- Helper: a valid schedule preserves the number of threads. -/
theorem foldRun_pcs_length (line : Nat → String) (evs : List PostEv)
    (s0 s : ConcState) (h : evs.foldlM (postStep line) s0 = some s) :
    s.pcs.length = s0.pcs.length := by
  induction evs generalizing s0 with
  | nil => cases h; rfl
  | cons e rest ih =>
      rw [List.foldlM_cons] at h
      cases hstep : postStep line s0 e with
      | none => rw [hstep] at h; exact absurd h (by simp)
      | some s1 =>
          rw [hstep] at h
          have hrest := ih s1 h
          cases e <;> simp only [postStep] at hstep <;> split at hstep <;>
            cases hstep <;> simpa [List.length_set] using hrest

/-- Helper: along a valid schedule the file is the initial content followed
by the lines of the appends, in schedule order. -/
theorem foldRun_file (line : Nat → String) (evs : List PostEv)
    (s0 s : ConcState) (h : evs.foldlM (postStep line) s0 = some s) :
    s.file = s0.file ++ concatLines ((appendsOf evs).map line) := by
  induction evs generalizing s0 with
  | nil =>
      cases h
      simp [appendsOf, concatLines, String.append_empty]
  | cons e rest ih =>
      rw [List.foldlM_cons] at h
      cases hstep : postStep line s0 e with
      | none => rw [hstep] at h; exact absurd h (by simp)
      | some s1 =>
          rw [hstep] at h
          have hrest := ih s1 h
          cases e <;> simp only [postStep] at hstep <;> split at hstep <;>
            cases hstep <;>
            simpa [appendsOf, List.filterMap_cons, concatLines,
              String.append_assoc] using hrest

/-- Helper: along a valid schedule, the number of appends of thread `t`
equals the advance of its append flag: 1 once its program counter has
passed the append, 0 before. -/
theorem foldRun_count (line : Nat → String) (evs : List PostEv)
    (s0 s : ConcState) (h : evs.foldlM (postStep line) s0 = some s) (t : Nat) :
    (appendsOf evs).count t + wrFlag s0 t = wrFlag s t := by
  induction evs generalizing s0 with
  | nil =>
      cases h
      simp [appendsOf]
  | cons e rest ih =>
      rw [List.foldlM_cons] at h
      cases hstep : postStep line s0 e with
      | none => rw [hstep] at h; exact absurd h (by simp)
      | some s1 =>
          rw [hstep] at h
          have hrest := ih s1 h
          cases e with
          | lock t' =>
              simp only [postStep] at hstep
              split at hstep
              · cases hstep
                rename_i hc
                obtain ⟨hlt, hpc0, -⟩ := hc
                have hw : wrFlag ⟨some t', s0.file, s0.pcs.set t' 1⟩ t = wrFlag s0 t := by
                  by_cases hte : t = t'
                  · subst hte
                    simp [wrFlag, pcOf_set _ _ _ _ _ _ hlt, hpc0]
                  · simp [wrFlag, pcOf_set _ _ _ _ _ _ hlt, hte]
                rw [hw] at hrest
                simpa [appendsOf, List.filterMap_cons] using hrest
              · cases hstep
          | append t' =>
              simp only [postStep] at hstep
              split at hstep
              · cases hstep
                rename_i hc
                obtain ⟨hpc1, -⟩ := hc
                have hlt : t' < s0.pcs.length :=
                  pcOf_pos_lt s0 t' (by rw [hpc1]; exact one_ne_zero)
                by_cases hte : t = t'
                · subst hte
                  have hw : wrFlag ⟨s0.holder, s0.file ++ line t, s0.pcs.set t 2⟩ t = 1 := by
                    simp [wrFlag, pcOf_set _ _ _ _ _ _ hlt]
                  have hw0 : wrFlag s0 t = 0 := by
                    simp [wrFlag, hpc1]
                  rw [hw] at hrest
                  rw [hw0]
                  simp only [appendsOf, List.filterMap_cons] at hrest ⊢
                  simp only [List.count_cons_self]
                  omega
                · have hw : wrFlag ⟨s0.holder, s0.file ++ line t', s0.pcs.set t' 2⟩ t
                      = wrFlag s0 t := by
                    simp [wrFlag, pcOf_set _ _ _ _ _ _ hlt, hte]
                  rw [hw] at hrest
                  simp only [appendsOf, List.filterMap_cons] at hrest ⊢
                  rw [List.count_cons_of_ne hte]
                  exact hrest
              · cases hstep
          | unlock t' =>
              simp only [postStep] at hstep
              split at hstep
              · cases hstep
                rename_i hc
                obtain ⟨hpc2, -⟩ := hc
                have hlt : t' < s0.pcs.length :=
                  pcOf_pos_lt s0 t' (by rw [hpc2]; exact two_ne_zero)
                have hw : wrFlag ⟨none, s0.file, s0.pcs.set t' 3⟩ t = wrFlag s0 t := by
                  by_cases hte : t = t'
                  · subst hte
                    simp [wrFlag, pcOf_set _ _ _ _ _ _ hlt, hpc2]
                  · simp [wrFlag, pcOf_set _ _ _ _ _ _ hlt, hte]
                rw [hw] at hrest
                simpa [appendsOf, List.filterMap_cons] using hrest
              · cases hstep

/-- Helper: indexing back over the range of the length is the identity. -/
theorem map_getD_range (l : List String) :
    (List.range l.length).map (fun i => l.getD i "") = l := by
  induction l with
  | nil => simp
  | cons a l ih =>
      rw [List.length_cons, List.range_succ_eq_map, List.map_cons, List.map_map]
      simp only [Function.comp, List.getD_cons_zero, List.getD_cons_succ]
      exact congrArg (a :: ·) ih

/-- Claim C8: for every set of concurrent decodable POSTs, serialized by
the single exclusive lock, every completed mutex-respecting schedule
leaves the log file equal to a concatenation of the formatted lines, one
complete line per request in lock-acquisition order, with no line
interleaved or truncated: the appends form a permutation of the requests
and the multiset of whole lines in the file is exactly the multiset of
request lines. -/
theorem concurrent_posts_serialize (reqs : List (String × DevicePayload))
    (evs : List PostEv) (s : ConcState)
    (hrun : postRun (postLine reqs) reqs.length evs = some s)
    (hdone : ∀ t, t < reqs.length → pcOf s t = 3) :
    s.file = concatLines ((appendsOf evs).map (postLine reqs)) ∧
    (appendsOf evs).Perm (List.range reqs.length) ∧
    ((appendsOf evs).map (postLine reqs)).Perm (reqs.map fun r => logEntry r.1 r.2) := by
  have hrun' : evs.foldlM (postStep (postLine reqs)) (initConc reqs.length) = some s := hrun
  have hlen : s.pcs.length = reqs.length := by
    have h := foldRun_pcs_length _ _ _ _ hrun'
    simpa [initConc] using h
  have hfile : s.file = concatLines ((appendsOf evs).map (postLine reqs)) := by
    have h := foldRun_file _ _ _ _ hrun'
    rw [h]
    show (initConc reqs.length).file ++ _ = _
    rw [initConc, String.empty_append]
  have hcount : ∀ t, (appendsOf evs).count t = wrFlag s t := by
    intro t
    have h := foldRun_count _ _ _ _ hrun' t
    rwa [wrFlag_initConc, Nat.add_zero] at h
  have hperm : (appendsOf evs).Perm (List.range reqs.length) := by
    rw [List.perm_iff_count]
    intro t
    rcases Nat.lt_or_ge t reqs.length with hlt | hge
    · rw [hcount t,
        List.count_eq_one_of_mem (List.nodup_range _) (List.mem_range.mpr hlt)]
      simp [wrFlag, hdone t hlt]
    · rw [hcount t,
        List.count_eq_zero_of_not_mem (fun hm => Nat.not_lt.mpr hge (List.mem_range.mp hm))]
      have hz : pcOf s t = 0 := List.getD_eq_default _ _ (hlen ▸ hge)
      simp [wrFlag, hz]
  refine ⟨hfile, hperm, ?_⟩
  have hmap := hperm.map (postLine reqs)
  have hmr : (List.range reqs.length).map (postLine reqs) =
      reqs.map fun r => logEntry r.1 r.2 := by
    have h0 := map_getD_range (reqs.map fun r => logEntry r.1 r.2)
    rw [List.length_map] at h0
    exact h0
  rwa [hmr] at hmap

/-- Witness for claim C8: two concurrent POSTs, thread 0 taking the lock
first; the schedule completes and its appends are a permutation of the two
requests. -/
theorem concurrent_posts_serialize_witness :
    (appendsOf [PostEv.lock 0, PostEv.append 0, PostEv.unlock 0,
      PostEv.lock 1, PostEv.append 1, PostEv.unlock 1]).Perm (List.range 2) :=
  (concurrent_posts_serialize
    [("T1", ⟨"A", "PC", "192.168.1.10", "Static"⟩),
     ("T2", ⟨"B", "PC", "192.168.1.11", "Static"⟩)]
    [PostEv.lock 0, PostEv.append 0, PostEv.unlock 0,
     PostEv.lock 1, PostEv.append 1, PostEv.unlock 1]
    ⟨none,
      "[T1] Name=A, Type=PC, IP=192.168.1.10, Routing=Static\n" ++
        "[T2] Name=B, Type=PC, IP=192.168.1.11, Routing=Static\n",
      [3, 3]⟩
    (by decide) (by decide)).2.1

/-- Claim C1, counterexample: with prior content "old", DELETE succeeds with
status 200, but the following GET returns 200 with an empty body, which is
not the fixed empty-log message. -/
theorem delete_then_get_not_always_empty_msg :
    (handleDelete (some "old")).1.status = 200 ∧
    (handleGet (handleDelete (some "old")).2.1).1 = ⟨200, ""⟩ ∧
    (⟨200, ""⟩ : Response) ≠ ⟨200, emptyLogMsg⟩ := by
  refine ⟨rfl, rfl, ?_⟩
  decide

/-- Claim C1, amended: after a successful DELETE, a GET returns the fixed
empty-log message when the file was absent before the DELETE; when the file
existed, the DELETE truncates it to an existing zero-length file and the GET
returns status 200 with an empty body. -/
theorem delete_then_get (fs : FileState) :
    (handleDelete fs).1.status = 200 ∧
    (handleGet (handleDelete fs).2.1).1 =
      (match fs with
        | none => ⟨200, emptyLogMsg⟩
        | some _ => ⟨200, ""⟩) := by
  cases fs <;> exact ⟨rfl, rfl⟩

/-- Claim C2: the fixed empty-log branch of GET is taken exactly when the
file is absent; DELETE on an existing file leaves an existing zero-length
file, on which GET returns status 200 with an empty body, which differs
from the fixed message. -/
theorem get_fixed_message_iff_absent :
    (∀ fs : FileState, readFileFs fs = ReadResult.notExist ↔ fs = none) ∧
    handleGetRes ReadResult.notExist = ⟨200, emptyLogMsg⟩ ∧
    (∀ c : String, (handleDelete (some c)).2.1 = some "") ∧
    (handleGet (some "")).1 = ⟨200, ""⟩ ∧
    ("" : String) ≠ emptyLogMsg := by
  refine ⟨fun fs => ?_, rfl, fun c => rfl, rfl, by decide⟩
  cases fs <;> simp [readFileFs]

/-- Claim C4: when the POST body does not decode, the response is 400 and
the handler performs no file operation and leaves the file state unchanged. -/
theorem post_undecodable_no_access (b : Body) (ts : String) (fs : FileState)
    (h : decodeBody b = none) :
    handlePost b ts fs = (⟨400, badJsonMsg⟩, fs, []) := by
  simp [handlePost, h]

/-- Witness for claim C4 at the body that is the JSON string "not json". -/
theorem post_undecodable_no_access_witness :
    decodeBody (some (Json.str "not json")) = none ∧
    handlePost (some (Json.str "not json")) "2024-01-01T00:00:00Z" (some "L") =
      (⟨400, badJsonMsg⟩, some "L", []) :=
  ⟨rfl, post_undecodable_no_access _ _ _ rfl⟩

/-- Claim C5: GET answers 200 with the fixed message when the file does not
exist, 500 on any other read failure, and 200 with the raw content
otherwise; the absent case is never a 500. -/
theorem get_error_cases :
    handleGetRes ReadResult.notExist = ⟨200, emptyLogMsg⟩ ∧
    handleGetRes ReadResult.otherError = ⟨500, readErrMsg⟩ ∧
    (∀ c : String, handleGetRes (ReadResult.ok c) = ⟨200, c⟩) ∧
    (handleGet none).1 = ⟨200, emptyLogMsg⟩ ∧
    (∀ c : String, (handleGet (some c)).1 = ⟨200, c⟩) ∧
    (handleGetRes ReadResult.notExist).status ≠ 500 := by
  exact ⟨rfl, rfl, fun c => rfl, rfl, fun c => rfl, by decide⟩

/-- Claim C6: DELETE answers 200 when the file is missing, 200 after
truncating an existing file to zero length, and 500 exactly when the
truncation fails for a reason other than absence. -/
theorem delete_error_cases :
    (handleDelete none).1 = ⟨200, deleteOkMsg⟩ ∧
    (∀ c : String, (handleDelete (some c)).1 = ⟨200, deleteOkMsg⟩ ∧
      (handleDelete (some c)).2.1 = some "") ∧
    (∀ r : TruncResult, (handleDeleteRes r).status = 500 ↔ r = TruncResult.otherError) := by
  refine ⟨rfl, fun c => ⟨rfl, rfl⟩, fun r => ?_⟩
  cases r <;> simp [handleDeleteRes]

/-- Claim C9: any method other than GET, POST and DELETE answers 405 with
no file operation and an unchanged file state. -/
theorem other_method_405 (m : String) (b : Body) (ts : String) (fs : FileState)
    (h1 : m ≠ "GET") (h2 : m ≠ "POST") (h3 : m ≠ "DELETE") :
    handleRoot m b ts fs = (⟨405, methodMsg⟩, fs, []) := by
  simp [handleRoot, h1, h2, h3]

/-- Witness for claim C9 at the method PUT. -/
theorem other_method_405_witness :
    handleRoot "PUT" none "T" (some "L") = (⟨405, methodMsg⟩, some "L", []) :=
  other_method_405 "PUT" none "T" (some "L") (by decide) (by decide) (by decide)

/-- Claim C10: POST validates nothing beyond decodability: the empty object
decodes to the all-empty payload, unknown keys are ignored and missing
fields stay empty, and every body that decodes is answered 200 with its
line appended. -/
theorem post_no_validation :
    decodePayload (Json.obj []) = some zeroPayload ∧
    decodePayload (Json.obj [("Unknown", Json.num 7), ("DeviceName", Json.str "A")]) =
      some { zeroPayload with DeviceName := "A" } ∧
    (∀ (j : Json) (p : DevicePayload) (ts : String) (fs : FileState),
      decodePayload j = some p →
      handlePost (some j) ts fs =
        (⟨200, postOkMsg⟩, appendFs fs (logEntry ts p), [FsOp.openAppend, FsOp.writeFile])) := by
  refine ⟨rfl, by decide, fun j p ts fs h => ?_⟩
  simp [handlePost, decodeBody, h]

/-- Witness for claim C10 at the empty JSON object. -/
theorem post_no_validation_witness :
    handlePost (some (Json.obj [])) "T" none =
      (⟨200, postOkMsg⟩, appendFs none (logEntry "T" zeroPayload),
        [FsOp.openAppend, FsOp.writeFile]) :=
  post_no_validation.2.2 (Json.obj []) zeroPayload "T" none rfl

/-- Claim C7: the simulation deterministically produces, for each of the
two subnets, exactly the five devices PC, PC, PC, Laptop, Printer with IP
suffixes 10 to 14, routing Dynamic for an even suffix and Static for an odd
one, and names of the shape TypeIndex_SubnetNumber. -/
theorem simulation_payloads :
    runSimulationPayloads =
      [⟨"PC1_1", "PC", "192.168.1.10", "Dynamic"⟩,
       ⟨"PC2_1", "PC", "192.168.1.11", "Static"⟩,
       ⟨"PC3_1", "PC", "192.168.1.12", "Dynamic"⟩,
       ⟨"Laptop1_1", "Laptop", "192.168.1.13", "Static"⟩,
       ⟨"Printer1_1", "Printer", "192.168.1.14", "Dynamic"⟩,
       ⟨"PC1_2", "PC", "192.168.2.10", "Dynamic"⟩,
       ⟨"PC2_2", "PC", "192.168.2.11", "Static"⟩,
       ⟨"PC3_2", "PC", "192.168.2.12", "Dynamic"⟩,
       ⟨"Laptop1_2", "Laptop", "192.168.2.13", "Static"⟩,
       ⟨"Printer1_2", "Printer", "192.168.2.14", "Dynamic"⟩] := by
  decide

/-- Helper: a sequence of decodable POSTs run from an existing file with
content `c` answers 200 everywhere and appends the lines in order. -/
theorem runPosts_from_some (tps : List (Body × String × DevicePayload))
    (hdec : ∀ x ∈ tps, decodeBody x.1 = some x.2.2) (c : String) :
    runPosts (tps.map fun x => (x.1, x.2.1)) (some c) =
      (List.replicate tps.length ⟨200, postOkMsg⟩,
        some (c ++ concatLines (tps.map fun x => logEntry x.2.1 x.2.2))) := by
  induction tps generalizing c with
  | nil => simp [runPosts, concatLines, String.append_empty]
  | cons hd tl ih =>
      have hhd : decodeBody hd.1 = some hd.2.2 := hdec hd (List.mem_cons_self _ _)
      have htl : ∀ x ∈ tl, decodeBody x.1 = some x.2.2 :=
        fun x hx => hdec x (List.mem_cons_of_mem _ hx)
      simp only [List.map_cons, runPosts, handlePost, hhd, appendFs, Option.getD,
        List.length_cons, concatLines]
      rw [ih htl]
      simp [List.replicate_succ, String.append_assoc]

/-- Helper: when the first POST of a nonempty decodable sequence runs, an
absent file and an existing empty file lead to the same states, because
open with create followed by the append yields the same content. -/
theorem runPosts_none_cons (b : Body) (ts : String) (p : DevicePayload)
    (rest : List (Body × String)) (h : decodeBody b = some p) :
    runPosts ((b, ts) :: rest) none = runPosts ((b, ts) :: rest) (some "") := by
  simp [runPosts, handlePost, h, appendFs]

/-- Claim C3, counterexample: for N = 0 starting from an absent log file,
the subsequent GET does not return the empty concatenation of zero lines;
it returns the fixed empty-log message, a different body. -/
theorem post_sequence_zero_counterexample :
    (runPosts ([] : List (Body × String)) none).2 = none ∧
    (handleGet (runPosts ([] : List (Body × String)) none).2).1.body = emptyLogMsg ∧
    emptyLogMsg ≠ concatLines [] := by
  exact ⟨rfl, rfl, by decide⟩

/-- Claim C3, amended: for every sequence of N decodable POSTs starting
from an absent or zero-length log file, where N is at least one or the
start file is the existing zero-length one, each POST answers 200 and
appends exactly its formatted line, and a subsequent GET answers 200 with
exactly those N lines concatenated in posting order.  (With N = 0 from an
absent file, GET instead answers the fixed empty-log message.) -/
theorem post_sequence (tps : List (Body × String × DevicePayload))
    (hdec : ∀ x ∈ tps, decodeBody x.1 = some x.2.2)
    (fs0 : FileState) (h0 : fs0 = none ∨ fs0 = some "")
    (hne : tps ≠ [] ∨ fs0 = some "") :
    (runPosts (tps.map fun x => (x.1, x.2.1)) fs0).1 =
      List.replicate tps.length ⟨200, postOkMsg⟩ ∧
    (runPosts (tps.map fun x => (x.1, x.2.1)) fs0).2 =
      some (concatLines (tps.map fun x => logEntry x.2.1 x.2.2)) ∧
    (handleGet (runPosts (tps.map fun x => (x.1, x.2.1)) fs0).2).1 =
      ⟨200, concatLines (tps.map fun x => logEntry x.2.1 x.2.2)⟩ ∧
    (tps.map fun x => logEntry x.2.1 x.2.2).length = tps.length := by
  have main : runPosts (tps.map fun x => (x.1, x.2.1)) fs0 =
      (List.replicate tps.length ⟨200, postOkMsg⟩,
        some (concatLines (tps.map fun x => logEntry x.2.1 x.2.2))) := by
    rcases h0 with h0 | h0
    · subst h0
      cases tps with
      | nil => exact absurd rfl (hne.resolve_right (by intro h; cases h))
      | cons hd tl =>
          have hhd : decodeBody hd.1 = some hd.2.2 := hdec hd (List.mem_cons_self _ _)
          have hfrom := runPosts_from_some (hd :: tl) hdec ""
          rw [String.empty_append, List.map_cons] at hfrom
          rw [List.map_cons, runPosts_none_cons hd.1 hd.2.1 hd.2.2 _ hhd, hfrom]
    · subst h0
      rw [runPosts_from_some _ hdec ""]
      rw [String.empty_append]
  refine ⟨by rw [main], by rw [main], by rw [main]; rfl, List.length_map _ _⟩

/-- Witness for claim C3 at one POST of the end-to-end record of the spec,
starting from an absent file. -/
theorem post_sequence_witness :
    (runPosts [(some (Json.obj [("DeviceName", Json.str "PC1_1"), ("DeviceType", Json.str "PC"),
        ("IPAddress", Json.str "192.168.1.10"), ("RoutingType", Json.str "Static")]),
        "2024-01-01T00:00:00Z")] none).2 =
      some "[2024-01-01T00:00:00Z] Name=PC1_1, Type=PC, IP=192.168.1.10, Routing=Static\n" :=
  (post_sequence
    [(some (Json.obj [("DeviceName", Json.str "PC1_1"), ("DeviceType", Json.str "PC"),
        ("IPAddress", Json.str "192.168.1.10"), ("RoutingType", Json.str "Static")]),
      "2024-01-01T00:00:00Z", ⟨"PC1_1", "PC", "192.168.1.10", "Static"⟩)]
    (by decide) none (Or.inl rfl) (Or.inl (List.cons_ne_nil _ _))).2.1

end LogService
